import Mathlib

/-!
Verification of the response-grouping and template-rendering core of a
document question-answering tool (`main.py`).

The grouper `parse_message_content` walks the ordered list of content
blocks of an API response and builds a render model: an introduction,
a list of sections (each with its text, its per-section citation data and
its footnote numbers), and a flat list of footnote entries.  The renderer
`render_message` substitutes that model into a fixed Jinja template
(`TEMPLATE_STRING`).  Both are embedded below as pure functions, following
the Python source line by line; the Jinja template is embedded by its
expansion under Jinja's default whitespace settings (no block trimming,
trailing template newline dropped).
-/

/-- A citation attached by the external service to a text block:
`cited_text`, `start_page_number`, `end_page_number` (`main.py` lines
60-71 read exactly these three fields). -/
structure Citation where
  cited_text : String
  start_page_number : Int
  end_page_number : Int
deriving DecidableEq, Repr

/-- One content block of the service response.  The grouper only looks at
`block.type`, `block.text` and `block.citations`; every block whose type
is not the recognized text type is covered by `other`. -/
inductive ContentBlock where
  | text (text : String) (citations : List Citation)
  | other
deriving DecidableEq, Repr

/-- The per-citation record the grouper appends to
`current_section['citations']` (`main.py` lines 61-65). -/
structure SectionCitation where
  cited_text : String
  page_range : String
  footnote_number : Nat
deriving DecidableEq, Repr

/-- One section of the parsed content (`main.py` lines 52-56). -/
structure Section where
  text : String
  citations : List SectionCitation
  footnote_numbers : List Nat
deriving DecidableEq, Repr

/-- One entry of the flat `all_citations` list (`main.py` lines 67-71). -/
structure FootnoteEntry where
  number : Nat
  text : String
  page_range : String
deriving DecidableEq, Repr

/-- The value returned by `parse_message_content`: the dict with keys
`introduction`, `sections` and `citations`. -/
structure ParsedContent where
  introduction : String
  sections : List Section
  citations : List FootnoteEntry
deriving DecidableEq, Repr

/-- The loop state of `parse_message_content`: the accumulating
`parsed_content['introduction']` and `parsed_content['sections']`
together with the local variables `current_section`, `footnote_counter`
and `all_citations` (`main.py` lines 30-37). -/
structure ParseState where
  introduction : String
  sections : List Section
  current_section : Option Section
  footnote_counter : Nat
  all_citations : List FootnoteEntry
deriving DecidableEq, Repr

/-- Python's `str.strip()`: remove leading and trailing whitespace
characters.  Defined structurally on the character list so that it
evaluates inside the kernel. -/
def strip (s : String) : String :=
  ⟨((s.data.dropWhile Char.isWhitespace).reverse.dropWhile Char.isWhitespace).reverse⟩

/-- The page-range string `f"Pages {citation.start_page_number}-{citation.end_page_number}"`
(`main.py` lines 63 and 70). -/
def pageRange (c : Citation) : String :=
  "Pages " ++ toString c.start_page_number ++ "-" ++ toString c.end_page_number

/-- The transition-marker literal of `main.py` line 47. -/
def transitionMarker : String := "However, there is an important exception:"

/-- The inner `for citation in block.citations` loop (`main.py` lines
60-72): each citation appends to the current section's `citations` and
`footnote_numbers`, appends a flat entry to `all_citations`, and bumps
`footnote_counter`. -/
def addCitations (sec : Section) (counter : Nat) (all : List FootnoteEntry) :
    List Citation → Section × Nat × List FootnoteEntry
  | [] => (sec, counter, all)
  | c :: rest =>
      addCitations
        { sec with
            citations := sec.citations ++ [⟨strip c.cited_text, pageRange c, counter⟩],
            footnote_numbers := sec.footnote_numbers ++ [counter] }
        (counter + 1)
        (all ++ [⟨counter, strip c.cited_text, pageRange c⟩])
        rest

/-- Closing the previous section and opening a new one for a
section-starting block (`main.py` lines 48-72): if a `current_section`
exists it is appended to `sections`, then a fresh section with the
block's trimmed text is opened and the block's citations are added. -/
def startSection (st : ParseState) (t : String) (cs : List Citation) : ParseState :=
  let r := addCitations ⟨strip t, [], []⟩ st.footnote_counter st.all_citations cs
  { st with
      sections := st.sections ++ st.current_section.toList,
      current_section := some r.1,
      footnote_counter := r.2.1,
      all_citations := r.2.2 }

/-- One iteration of the `for block in message.content` loop (`main.py`
lines 39-72).  Blocks whose type is not `text` are skipped.  A text
block with no citations while the introduction is still falsy (the empty
string) becomes the introduction.  Otherwise a block starts a new
section when it has citations, or when its trimmed text is the
transition marker or empty; any other block is dropped. -/
def processBlock (st : ParseState) : ContentBlock → ParseState
  | ContentBlock.other => st
  | ContentBlock.text t cs =>
      if cs = [] ∧ st.introduction = "" then
        { st with introduction := strip t }
      else if cs ≠ [] ∨ (cs = [] ∧ (strip t = transitionMarker ∨ strip t = "")) then
        startSection st t cs
      else
        st

/-- The grouper `parse_message_content` (`main.py` lines 25-79): fold the
loop over the blocks from the initial state, then append the still-open
`current_section` (lines 74-76) and package the result dict. -/
def parse_message_content (blocks : List ContentBlock) : ParsedContent :=
  let st := blocks.foldl processBlock ⟨"", [], none, 1, []⟩
  { introduction := st.introduction,
    sections := st.sections ++ st.current_section.toList,
    citations := st.all_citations }

/-- The footnote-marker run of the template's section line:
`[^{{ section.footnote_numbers|join('][^') }}]` guarded by an `if` on
the (truthiness of the) list, so the empty list yields no marker. -/
def footnoteMarkers (ns : List Nat) : String :=
  if ns = [] then "" else "[^" ++ String.intercalate "][^" (ns.map toString) ++ "]"

/-- The expansion of `TEMPLATE_STRING` (`main.py` lines 8-19) under
Jinja's default settings: literal text is kept verbatim (no block
trimming), each loop iteration emits the newline-delimited body between
its tags, and the template's single trailing newline is dropped. -/
def renderModel (p : ParsedContent) : String :=
  "\n" ++ p.introduction ++ "\n\n" ++
    String.join (p.sections.map fun s =>
      "\n" ++ (s.text ++ footnoteMarkers s.footnote_numbers) ++ "\n\n") ++
    "\n\n" ++
    String.join (p.citations.map fun c =>
      "\n" ++ ("[^" ++ toString c.number ++ "]: " ++ c.text ++ " *(" ++ c.page_range ++ ")*") ++
        "\n")

/-- `render_message` (`main.py` lines 81-87): parse the blocks and render
the template on the parsed content. -/
def render_message (blocks : List ContentBlock) : String :=
  renderModel (parse_message_content blocks)


/-- The test for recognized text blocks: `block.type == 'text'`
(`main.py` line 40). -/
def isTextBlock : ContentBlock → Bool
  | ContentBlock.text _ _ => true
  | ContentBlock.other => false

/-- The worked example of the spec's §8 scenario list. -/
def exampleBlocks : List ContentBlock :=
  [ContentBlock.text "Intro." [],
   ContentBlock.text "Fact A" [⟨"quote1", 1, 2⟩],
   ContentBlock.text "Fact B" [⟨"quote2", 3, 3⟩]]

/-- The introduction candidate a block contributes: a text block with no
citations and non-empty stripped text offers its stripped text. -/
def introCandidate : ContentBlock → Option String
  | ContentBlock.text t [] => if strip t = "" then none else some (strip t)
  | _ => none

/-- The stripped text of the first citation-free text block whose
stripped text is non-empty, or the empty string when there is none. -/
def firstIntro (blocks : List ContentBlock) : String :=
  ((blocks.filterMap introCandidate).head?).getD ""

/-- Modelled from the spec: the exact rendered layout prescribed by
§4.2 — the introduction, a blank line, the sections (text with the
footnote markers appended directly) separated by a single blank line,
a blank line, then the footnote definitions one per line. -/
def renderSpecLayout (p : ParsedContent) : String :=
  p.introduction ++ "\n\n" ++
    String.intercalate "\n\n"
      (p.sections.map fun s => s.text ++ footnoteMarkers s.footnote_numbers) ++
    "\n\n" ++
    String.intercalate "\n" (p.citations.map fun c =>
      "[^" ++ toString c.number ++ "]: " ++ c.text ++ " *(" ++ c.page_range ++ ")*")

/-- The layout the template really produces, written as an intercalation
of the section and footnote lines: a leading newline, the introduction,
a blank line, the section lines (text with markers appended directly)
separated by two blank lines and wrapped in a leading newline and two
trailing newlines, two more newlines, and the footnote definitions
separated by one blank line and wrapped in a leading and a trailing
newline. -/
def renderActualLayout (p : ParsedContent) : String :=
  "\n" ++ p.introduction ++ "\n\n" ++
    (if p.sections = [] then "" else
      "\n" ++ String.intercalate "\n\n\n"
        (p.sections.map fun s => s.text ++ footnoteMarkers s.footnote_numbers) ++ "\n\n") ++
    "\n\n" ++
    (if p.citations = [] then "" else
      "\n" ++ String.intercalate "\n\n" (p.citations.map fun c =>
        "[^" ++ toString c.number ++ "]: " ++ c.text ++ " *(" ++ c.page_range ++ ")*") ++ "\n")

/-- The flat footnote entries the inner citation loop appends for a
citation list when the counter starts at `k`. -/
def entriesFrom (k : Nat) : List Citation → List FootnoteEntry
  | [] => []
  | c :: rest => ⟨k, strip c.cited_text, pageRange c⟩ :: entriesFrom (k + 1) rest

/-- The per-section citation records the inner citation loop appends for
a citation list when the counter starts at `k`. -/
def sectionCitsFrom (k : Nat) : List Citation → List SectionCitation
  | [] => []
  | c :: rest => ⟨strip c.cited_text, pageRange c, k⟩ :: sectionCitsFrom (k + 1) rest

/-- A section matches an originating segment (its raw text paired with
its citation list) when the section's text is the stripped segment text
and its footnote numbers correspond one to one, in order, with the
segment's citations, each number `n` pointing at position `n - 1` of the
flat footnote list to exactly the entry built from that citation. -/
def secMatch (all : List FootnoteEntry) (s : Section) (o : String × List Citation) : Prop :=
  s.text = strip o.1 ∧
  List.Forall₂ (fun n c => all[n - 1]? = some ⟨n, strip c.cited_text, pageRange c⟩)
    s.footnote_numbers o.2

/-- The loop invariant of the grouper after the blocks `pre` have been
processed: the counter is one past the number of entries, the entry
numbers are `1, 2, ...` in list order, every closed or open section
matches an originating text segment of `pre` (in input order), and every
entry's text and page range come from a citation of some text block of
`pre`. -/
def GrouperInv (pre : List ContentBlock) (st : ParseState) : Prop :=
  st.footnote_counter = st.all_citations.length + 1 ∧
  st.all_citations.map FootnoteEntry.number = List.range' 1 st.all_citations.length ∧
  (∃ origins : List (String × List Citation),
    (origins.map fun o => ContentBlock.text o.1 o.2).Sublist pre ∧
    List.Forall₂ (secMatch st.all_citations)
      (st.sections ++ st.current_section.toList) origins) ∧
  ∀ e ∈ st.all_citations, ∃ t cs c, ContentBlock.text t cs ∈ pre ∧ c ∈ cs ∧
    e.text = strip c.cited_text ∧ e.page_range = pageRange c

lemma processBlock_other (st : ParseState) : processBlock st ContentBlock.other = st := rfl

lemma foldl_processBlock_filter (st : ParseState) (blocks : List ContentBlock) :
    (blocks.filter isTextBlock).foldl processBlock st = blocks.foldl processBlock st := by
  induction blocks generalizing st with
  | nil => rfl
  | cons b rest ih =>
      cases b with
      | text t cs => simp only [List.filter_cons, isTextBlock, if_pos, List.foldl_cons]; exact ih _
      | other =>
          simp only [List.filter_cons, isTextBlock, Bool.false_eq_true, if_false,
            List.foldl_cons, processBlock_other]
          exact ih st

lemma processBlock_intro_of_ne (st : ParseState) (b : ContentBlock)
    (h : st.introduction ≠ "") : (processBlock st b).introduction = st.introduction := by
  cases b with
  | other => rfl
  | text t cs =>
      simp only [processBlock]
      split
      · next hc => exact absurd hc.2 h
      · split
        · rfl
        · rfl

lemma foldl_intro_of_ne (blocks : List ContentBlock) (st : ParseState)
    (h : st.introduction ≠ "") :
    (blocks.foldl processBlock st).introduction = st.introduction := by
  induction blocks generalizing st with
  | nil => rfl
  | cons b rest ih =>
      rw [List.foldl_cons, ih _ (by rw [processBlock_intro_of_ne st b h]; exact h),
        processBlock_intro_of_ne st b h]

lemma processBlock_plain_empty_intro (st : ParseState) (t : String)
    (h : st.introduction = "") :
    processBlock st (ContentBlock.text t []) = { st with introduction := strip t } := by
  simp only [processBlock]
  rw [if_pos ⟨trivial, h⟩]

lemma foldl_intro_of_empty (blocks : List ContentBlock) (st : ParseState)
    (h : st.introduction = "") :
    (blocks.foldl processBlock st).introduction = firstIntro blocks := by
  induction blocks generalizing st with
  | nil => simpa [firstIntro] using h
  | cons b rest ih =>
      cases b with
      | other =>
          rw [List.foldl_cons, processBlock_other, ih st h]
          simp [firstIntro, introCandidate]
      | text t cs =>
          cases cs with
          | nil =>
              rw [List.foldl_cons, processBlock_plain_empty_intro st t h]
              by_cases he : strip t = ""
              · rw [ih _ (by simpa using he)]
                simp [firstIntro, introCandidate, he]
              · rw [foldl_intro_of_ne rest _ (by simpa using he)]
                simp [firstIntro, introCandidate, he]
          | cons c cs' =>
              rw [List.foldl_cons]
              have hpb : processBlock st (ContentBlock.text t (c :: cs')) =
                  startSection st t (c :: cs') := by
                simp only [processBlock]
                rw [if_neg (by rintro ⟨hc, -⟩; exact List.cons_ne_nil c cs' hc),
                  if_pos (Or.inl (List.cons_ne_nil c cs'))]
              rw [hpb, ih _ (by simpa [startSection] using h)]
              simp [firstIntro, introCandidate]

lemma string_foldl_append (l : List String) :
    ∀ a : String, l.foldl (fun r s => r ++ s) a = a ++ String.join l := by
  induction l with
  | nil => intro a; simp [String.join]
  | cons s l ih =>
      intro a
      show l.foldl _ (a ++ s) = a ++ String.join (s :: l)
      rw [ih (a ++ s)]
      have hc : String.join (s :: l) = s ++ String.join l := by
        show l.foldl _ ("" ++ s) = _
        rw [ih ("" ++ s), String.empty_append]
      rw [hc, String.append_assoc]

lemma string_join_cons (s : String) (l : List String) :
    String.join (s :: l) = s ++ String.join l := by
  show l.foldl _ ("" ++ s) = _
  rw [string_foldl_append, String.empty_append]

lemma string_intercalate_go (s : String) : ∀ (l : List String) (acc : String),
    String.intercalate.go acc s l = acc ++ String.join (l.map fun x => s ++ x) := by
  intro l
  induction l with
  | nil => intro acc; simp [String.intercalate.go, String.join]
  | cons a l ih =>
      intro acc
      show String.intercalate.go (acc ++ s ++ a) s l = _
      rw [ih, List.map_cons, string_join_cons]
      simp [String.append_assoc]

lemma string_intercalate_cons (s a : String) (l : List String) :
    String.intercalate s (a :: l) = a ++ String.join (l.map fun x => s ++ x) := by
  show String.intercalate.go a s l = _
  exact string_intercalate_go s l a

lemma join_shift {α : Type} (f : α → String) (a b : String) (l : List α) :
    b ++ String.join (l.map fun x => a ++ f x ++ b) =
      String.join (l.map fun x => (b ++ a) ++ f x) ++ b := by
  induction l with
  | nil => simp [String.join]
  | cons x l ih =>
      simp only [List.map_cons, string_join_cons]
      calc b ++ (a ++ f x ++ b ++ String.join (l.map fun x => a ++ f x ++ b))
          = ((b ++ a) ++ f x) ++ (b ++ String.join (l.map fun x => a ++ f x ++ b)) := by
            simp [String.append_assoc]
        _ = ((b ++ a) ++ f x) ++ (String.join (l.map fun x => (b ++ a) ++ f x) ++ b) := by
            rw [ih]
        _ = ((b ++ a) ++ f x ++ String.join (l.map fun x => (b ++ a) ++ f x)) ++ b := by
            simp [String.append_assoc]

lemma join_wrap {α : Type} [DecidableEq α] (f : α → String) (a b : String) (l : List α) :
    String.join (l.map fun x => a ++ f x ++ b) =
      if l = [] then ""
      else a ++ String.intercalate (b ++ a) (l.map f) ++ b := by
  cases l with
  | nil => simp [String.join]
  | cons x l =>
      rw [if_neg (List.cons_ne_nil x l), List.map_cons, List.map_cons,
        string_intercalate_cons, string_join_cons, List.map_map]
      have hm : (l.map fun x => (b ++ a) ++ f x) =
          l.map ((fun y => (b ++ a) ++ y) ∘ f) := rfl
      calc (a ++ f x ++ b) ++ String.join (l.map fun x => a ++ f x ++ b)
          = (a ++ f x) ++ (b ++ String.join (l.map fun x => a ++ f x ++ b)) := by
            simp [String.append_assoc]
        _ = (a ++ f x) ++ (String.join (l.map fun x => (b ++ a) ++ f x) ++ b) := by
            rw [join_shift]
        _ = a ++ (f x ++ String.join (l.map ((fun y => (b ++ a) ++ y) ∘ f))) ++ b := by
            rw [← hm]; simp [String.append_assoc]

/-- C5 counterexample: on the worked example, the markdown actually
rendered by the template differs from the exact §4.2 layout (the
template emits extra newlines: sections are separated by two blank
lines, not one, and footnote definitions are separated by a blank
line, not placed on consecutive lines). -/
theorem render_spec_layout_counterexample :
    render_message exampleBlocks ≠ renderSpecLayout (parse_message_content exampleBlocks) := by
  decide

/-- C5 (amended): the rendered markdown contains the introduction, each
section's text with its footnote markers `[^n]` appended directly after
the text with no separating space (one token per footnote number, in
list order, none when the list is empty), and the footnote definitions
of the form `[^n]: <cited_text> *(<page_range>)*` in ascending number
order — but with the template's actual whitespace: a leading newline,
consecutive sections separated by two blank lines, the footnote
definitions separated by one blank line, and extra newlines wrapping
both lists. -/
theorem render_layout_amended (p : ParsedContent) :
    renderModel p = renderActualLayout p := by
  unfold renderModel renderActualLayout
  rw [join_wrap (fun s : Section => s.text ++ footnoteMarkers s.footnote_numbers)
      "\n" "\n\n" p.sections,
    join_wrap (fun c : FootnoteEntry =>
      "[^" ++ toString c.number ++ "]: " ++ c.text ++ " *(" ++ c.page_range ++ ")*")
      "\n" "\n" p.citations,
    show ("\n\n" : String) ++ "\n" = "\n\n\n" by decide,
    show ("\n" : String) ++ "\n" = "\n\n" by decide]

set_option maxRecDepth 8000 in
/-- C1: on the input `[PlainText "Intro.", CitedText "Fact A" quote1 pages 1-2,
CitedText "Fact B" quote2 pages 3-3]`, the grouper produces introduction
`"Intro."`, exactly two sections with footnote numbers `[1]` and `[2]`,
the two expected footnote entries, and the rendered markdown contains
`Fact A[^1]`, `Fact B[^2]`, and both footnote definition lines. -/
theorem worked_example_grouping_and_render :
    parse_message_content exampleBlocks =
      { introduction := "Intro.",
        sections :=
          [⟨"Fact A", [⟨"quote1", "Pages 1-2", 1⟩], [1]⟩,
           ⟨"Fact B", [⟨"quote2", "Pages 3-3", 2⟩], [2]⟩],
        citations := [⟨1, "quote1", "Pages 1-2"⟩, ⟨2, "quote2", "Pages 3-3"⟩] } ∧
    "Fact A[^1]".data <:+: (render_message exampleBlocks).data ∧
    "Fact B[^2]".data <:+: (render_message exampleBlocks).data ∧
    "[^1]: quote1 *(Pages 1-2)*".data <:+: (render_message exampleBlocks).data ∧
    "[^2]: quote2 *(Pages 3-3)*".data <:+: (render_message exampleBlocks).data := by
  refine ⟨by decide, ?_, ?_, ?_, ?_⟩ <;> decide

/-- C7: the empty input yields the fully empty render model and its
rendering is whitespace only, and the single empty plain block yields
the empty introduction with no sections and no footnotes. -/
theorem empty_inputs_yield_empty_model :
    parse_message_content [] = ⟨"", [], []⟩ ∧
    (render_message []).data.all Char.isWhitespace = true ∧
    parse_message_content [ContentBlock.text "" []] = ⟨"", [], []⟩ := by
  decide

/-- C6: blocks of an unrecognized shape are skipped without failing: the
grouper returns the same model as for the input with those blocks
removed. -/
theorem unrecognized_blocks_skipped (blocks : List ContentBlock) :
    parse_message_content blocks = parse_message_content (blocks.filter isTextBlock) := by
  unfold parse_message_content
  rw [foldl_processBlock_filter]

lemma addCitations_eq (cs : List Citation) : ∀ (sec : Section) (k : Nat) (all : List FootnoteEntry),
    addCitations sec k all cs =
      (⟨sec.text, sec.citations ++ sectionCitsFrom k cs,
          sec.footnote_numbers ++ List.range' k cs.length⟩,
        k + cs.length, all ++ entriesFrom k cs) := by
  induction cs with
  | nil => intro sec k all; simp [addCitations, sectionCitsFrom, entriesFrom]
  | cons c rest ih =>
      intro sec k all
      rw [addCitations, ih]
      simp [sectionCitsFrom, entriesFrom, List.range'_succ, List.append_assoc,
        Nat.add_assoc, Nat.add_comm, Nat.add_left_comm]

lemma entriesFrom_length (cs : List Citation) : ∀ k, (entriesFrom k cs).length = cs.length := by
  induction cs with
  | nil => intro k; rfl
  | cons c rest ih => intro k; simp [entriesFrom, ih]

lemma entriesFrom_map_number (cs : List Citation) : ∀ k,
    (entriesFrom k cs).map FootnoteEntry.number = List.range' k cs.length := by
  induction cs with
  | nil => intro k; rfl
  | cons c rest ih => intro k; simp [entriesFrom, List.range'_succ, ih]

lemma entriesFrom_mem {e : FootnoteEntry} (cs : List Citation) : ∀ k, e ∈ entriesFrom k cs →
    ∃ c ∈ cs, e.text = strip c.cited_text ∧ e.page_range = pageRange c := by
  induction cs with
  | nil => intro k h; cases h
  | cons c rest ih =>
      intro k h
      rcases List.mem_cons.1 h with he | hrest
      · exact ⟨c, List.mem_cons_self c rest, by rw [he], by rw [he]⟩
      · obtain ⟨c', hc', h1, h2⟩ := ih (k + 1) hrest
        exact ⟨c', List.mem_cons_of_mem c hc', h1, h2⟩

lemma forall2_entries (cs : List Citation) : ∀ (all : List FootnoteEntry) (k : Nat),
    k = all.length + 1 →
    List.Forall₂
      (fun n c => (all ++ entriesFrom k cs)[n - 1]? = some ⟨n, strip c.cited_text, pageRange c⟩)
      (List.range' k cs.length) cs := by
  induction cs with
  | nil => intro all k hk; exact List.Forall₂.nil
  | cons c rest ih =>
      intro all k hk
      rw [List.length_cons, List.range'_succ]
      refine List.Forall₂.cons ?_ ?_
      · have hidx : k - 1 = all.length := by omega
        rw [hidx, List.getElem?_append_right (Nat.le_refl _)]
        simp [entriesFrom]
      · have htail := ih (all ++ [⟨k, strip c.cited_text, pageRange c⟩]) (k + 1)
          (by simp [hk])
        simpa [entriesFrom, List.append_assoc] using htail

lemma secMatch_mono {all ext : List FootnoteEntry} {s : Section} {o : String × List Citation}
    (h : secMatch all s o) : secMatch (all ++ ext) s o := by
  refine ⟨h.1, h.2.imp fun n c hnc => ?_⟩
  have hlt : n - 1 < all.length := by
    rcases List.getElem?_eq_some_iff.1 hnc with ⟨hl, -⟩
    exact hl
  rw [List.getElem?_append_left hlt]
  exact hnc

lemma grouperInv_append (pre ext : List ContentBlock) (st : ParseState)
    (h : GrouperInv pre st) : GrouperInv (pre ++ ext) st := by
  obtain ⟨h1, h2, ⟨origins, hsub, hfa⟩, h4⟩ := h
  refine ⟨h1, h2, ⟨origins, hsub.trans (List.sublist_append_left pre ext), hfa⟩, ?_⟩
  intro e he
  obtain ⟨t, cs, c, hb, hc, hh⟩ := h4 e he
  exact ⟨t, cs, c, List.mem_append_left ext hb, hc, hh⟩

lemma grouperInv_startSection (pre : List ContentBlock) (st : ParseState)
    (t : String) (cs : List Citation) (h : GrouperInv pre st) :
    GrouperInv (pre ++ [ContentBlock.text t cs]) (startSection st t cs) := by
  obtain ⟨h1, h2, ⟨origins, hsub, hfa⟩, h4⟩ := h
  unfold startSection
  rw [addCitations_eq]
  refine ⟨?_, ?_, ?_, ?_⟩
  · simp only [List.length_append, entriesFrom_length]
    omega
  · show (st.all_citations ++ entriesFrom st.footnote_counter cs).map FootnoteEntry.number = _
    rw [List.map_append, h2, entriesFrom_map_number, List.length_append,
      entriesFrom_length, h1, show st.all_citations.length + 1 =
        1 + st.all_citations.length by omega, List.range'_append_1,
      Nat.add_comm st.all_citations.length cs.length]
  · refine ⟨origins ++ [(t, cs)], ?_, ?_⟩
    · rw [List.map_append]
      exact hsub.append (List.Sublist.refl _)
    · show List.Forall₂ _ ((st.sections ++ st.current_section.toList) ++ [_]) _
      refine List.rel_append (hfa.imp fun s o hso => secMatch_mono hso) ?_
      refine List.Forall₂.cons ⟨rfl, ?_⟩ List.Forall₂.nil
      show List.Forall₂ _ ([] ++ List.range' st.footnote_counter cs.length) cs
      rw [List.nil_append]
      exact forall2_entries cs st.all_citations st.footnote_counter h1
  · intro e he
    rcases List.mem_append.1 he with hold | hnew
    · obtain ⟨t', cs', c', hb, hc, hh⟩ := h4 e hold
      exact ⟨t', cs', c', List.mem_append_left _ hb, hc, hh⟩
    · obtain ⟨c', hc', hh1, hh2⟩ := entriesFrom_mem cs st.footnote_counter hnew
      exact ⟨t, cs, c', List.mem_append_right _ (List.mem_singleton_self _), hc', hh1, hh2⟩

lemma grouperInv_step (pre : List ContentBlock) (st : ParseState) (b : ContentBlock)
    (h : GrouperInv pre st) : GrouperInv (pre ++ [b]) (processBlock st b) := by
  cases b with
  | other => rw [processBlock_other]; exact grouperInv_append pre _ st h
  | text t cs =>
      simp only [processBlock]
      split
      · exact grouperInv_append pre _ st h
      · split
        · exact grouperInv_startSection pre st t cs h
        · exact grouperInv_append pre _ st h

lemma grouperInv_foldl (blocks : List ContentBlock) : ∀ (pre : List ContentBlock)
    (st : ParseState), GrouperInv pre st →
    GrouperInv (pre ++ blocks) (blocks.foldl processBlock st) := by
  induction blocks with
  | nil => intro pre st h; simpa using h
  | cons b rest ih =>
      intro pre st h
      rw [List.foldl_cons]
      have hstep := ih (pre ++ [b]) (processBlock st b) (grouperInv_step pre st b h)
      simpa [List.append_assoc] using hstep

lemma grouperInv_base : GrouperInv [] ⟨"", [], none, 1, []⟩ := by
  exact ⟨rfl, rfl, ⟨[], by simp, List.Forall₂.nil⟩, by simp⟩

lemma grouperInv_parse (blocks : List ContentBlock) :
    GrouperInv blocks (blocks.foldl processBlock ⟨"", [], none, 1, []⟩) := by
  simpa using grouperInv_foldl blocks [] ⟨"", [], none, 1, []⟩ grouperInv_base

/-- C3: across the whole parsed content, the footnote entry numbers in
list order are exactly `1, 2, 3, ...` — strictly increasing, 1-based,
with no gaps or repeats, assigned in citation encounter order regardless
of section boundaries. -/
theorem footnote_numbers_sequential (blocks : List ContentBlock) :
    (parse_message_content blocks).citations.map FootnoteEntry.number =
      List.range' 1 (parse_message_content blocks).citations.length :=
  (grouperInv_parse blocks).2.1

/-- C4: every section of the grouper's output originates from a text
block of the input (in input order — the originating segments form a
sublist), its text is that block's stripped text, and its footnote
numbers correspond one to one, in order, with that block's citations,
each number pointing in the flat footnote list to exactly the entry
created from the corresponding citation. -/
theorem section_footnotes_match_origins (blocks : List ContentBlock) :
    ∃ origins : List (String × List Citation),
      (origins.map fun o => ContentBlock.text o.1 o.2).Sublist blocks ∧
      List.Forall₂ (secMatch (parse_message_content blocks).citations)
        (parse_message_content blocks).sections origins :=
  (grouperInv_parse blocks).2.2.1

/-- C8: every footnote entry's page range is the string
`Pages {start}-{end}` built from the start and end page numbers of the
citation it was created from, with the same format when the two pages
are equal (no singular-page special case), and its text is the stripped
cited text of that citation. -/
theorem page_range_format (blocks : List ContentBlock) (e : FootnoteEntry)
    (he : e ∈ (parse_message_content blocks).citations) :
    ∃ t cs c, ContentBlock.text t cs ∈ blocks ∧ c ∈ cs ∧
      e.text = strip c.cited_text ∧
      e.page_range =
        "Pages " ++ toString c.start_page_number ++ "-" ++ toString c.end_page_number := by
  obtain ⟨t, cs, c, hb, hc, h1, h2⟩ := (grouperInv_parse blocks).2.2.2 e he
  exact ⟨t, cs, c, hb, hc, h1, h2⟩

/-- Witness for C8 at a concrete input whose citation has equal start
and end pages. -/
theorem page_range_format_witness :
    ∃ t cs c, ContentBlock.text t cs ∈ [ContentBlock.text "F" [⟨"q", 3, 3⟩]] ∧ c ∈ cs ∧
      (⟨1, "q", "Pages 3-3"⟩ : FootnoteEntry).text = strip c.cited_text ∧
      (⟨1, "q", "Pages 3-3"⟩ : FootnoteEntry).page_range =
        "Pages " ++ toString c.start_page_number ++ "-" ++ toString c.end_page_number :=
  page_range_format [ContentBlock.text "F" [⟨"q", 3, 3⟩]] ⟨1, "q", "Pages 3-3"⟩ (by decide)

lemma processBlock_plain_dropped (st : ParseState) (t : String)
    (h1 : st.introduction ≠ "") (h2 : strip t ≠ "") (h3 : strip t ≠ transitionMarker) :
    processBlock st (ContentBlock.text t []) = st := by
  simp only [processBlock]
  rw [if_neg, if_neg]
  · rintro (hne | ⟨-, hm | he⟩)
    · exact hne rfl
    · exact h3 hm
    · exact h2 he
  · rintro ⟨-, hi⟩
    exact h1 hi

/-- C2 counterexample: with the input `[PlainText "", PlainText "Hello"]`
the first block sets the introduction to the empty string, and the later
citation-free block — stripped text non-empty and not the transition
marker — is not dropped: it changes the introduction to `"Hello"`. -/
theorem intro_overwritten_after_empty_intro :
    (parse_message_content [ContentBlock.text "" []]).introduction = "" ∧
    (parse_message_content
      [ContentBlock.text "" [], ContentBlock.text "Hello" []]).introduction = "Hello" ∧
    strip "Hello" ≠ "" ∧ strip "Hello" ≠ transitionMarker := by
  decide

/-- C2 (amended): after the introduction has been set to a NON-EMPTY
string, any later citation-free text block whose stripped text is
non-empty and not the transition marker is silently dropped: removing it
from the input leaves the whole parsed content unchanged (it changes no
introduction, starts no section, and extends no section). -/
theorem plain_block_dropped_after_nonempty_intro (l₁ l₂ : List ContentBlock) (t : String)
    (h1 : (l₁.foldl processBlock ⟨"", [], none, 1, []⟩).introduction ≠ "")
    (h2 : strip t ≠ "") (h3 : strip t ≠ transitionMarker) :
    parse_message_content (l₁ ++ ContentBlock.text t [] :: l₂) =
      parse_message_content (l₁ ++ l₂) := by
  unfold parse_message_content
  rw [List.foldl_append, List.foldl_append, List.foldl_cons,
    processBlock_plain_dropped _ t h1 h2 h3]

/-- Witness for the amended C2 at a concrete input. -/
theorem plain_block_dropped_witness :
    parse_message_content
        ([ContentBlock.text "Intro." []] ++ ContentBlock.text "Dropped" [] :: []) =
      parse_message_content ([ContentBlock.text "Intro." []] ++ []) :=
  plain_block_dropped_after_nonempty_intro [ContentBlock.text "Intro." []] [] "Dropped"
    (by decide) (by decide) (by decide)

/-- C10: while the introduction is still the empty string, a
citation-free text block is routed to the introduction (it neither
starts a section nor is dropped, and it changes nothing else);
consequently the final introduction is the stripped text of the first
citation-free text block whose stripped text is non-empty, and the
empty string when there is none. -/
theorem introduction_first_plain_block :
    (∀ (st : ParseState) (t : String), st.introduction = "" →
      processBlock st (ContentBlock.text t []) = { st with introduction := strip t }) ∧
    ∀ blocks : List ContentBlock,
      (parse_message_content blocks).introduction = firstIntro blocks := by
  refine ⟨processBlock_plain_empty_intro, fun blocks => ?_⟩
  show (blocks.foldl processBlock ⟨"", [], none, 1, []⟩).introduction = firstIntro blocks
  exact foldl_intro_of_empty blocks ⟨"", [], none, 1, []⟩ rfl

/-- Witness for C10 at a concrete state and block. -/
theorem introduction_first_plain_block_witness :
    processBlock ⟨"", [], none, 1, []⟩ (ContentBlock.text " Hi " []) =
      { (⟨"", [], none, 1, []⟩ : ParseState) with introduction := strip " Hi " } :=
  introduction_first_plain_block.1 ⟨"", [], none, 1, []⟩ " Hi " rfl
